import Mathlib

/-!
Verification of the order execution engine in `src/server.ts`.

The server is shallowly embedded: numbers are modelled as rationals,
JavaScript strings as Lean strings, the Postgres `UPDATE ... COALESCE`
ledger write as a pure state transformer on an `OrderRow`, the WebSocket
registry as an association list, and the BullMQ worker pipeline as a pure
function from an order and the per-attempt random inputs (venue quotes,
slippage factor, settlement hash) to the list of emitted status
transitions and the attempt outcome.
-/

set_option linter.unusedVariables false

namespace OrderExec

attribute [local semireducible] Rat.mul Rat.add Rat.sub Rat.inv

/-- Lifecycle statuses of an order (the `OrderStatus` union type in the source). -/
inductive OrderStatus
  | pending
  | routing
  | building
  | submitted
  | confirmed
  | failed
deriving DecidableEq, Repr

/-- The two simulated venues (the `DexName` union type in the source). -/
inductive DexName
  | raydium
  | meteora
deriving DecidableEq, Repr

/-- Quote returned by a venue: price and fee (interface `DexQuote`). -/
structure DexQuote where
  price : ℚ
  fee : ℚ
deriving DecidableEq, Repr

/-- Result of a simulated swap (interface `SwapResult`). -/
structure SwapResult where
  txHash : String
  executedPrice : ℚ
deriving DecidableEq, Repr

/-- Job data consumed by the worker (interface `OrderJobData`); the `type`
field of the source is modelled as a plain string `otype`. -/
structure OrderJobData where
  orderId : String
  tokenIn : String
  tokenOut : String
  amount : ℚ
  otype : String
deriving DecidableEq, Repr

/-- Optional extra fields passed to `emitStatus` (the `extra` parameter). -/
structure StatusExtra where
  dex : Option DexName := none
  txHash : Option String := none
  error : Option String := none
  executedPrice : Option ℚ := none
deriving DecidableEq, Repr

/-- A row of the `orders` table (timestamps omitted). -/
structure OrderRow where
  id : String
  otype : String
  tokenIn : String
  tokenOut : String
  amount : ℚ
  status : OrderStatus
  dex : Option DexName
  txHash : Option String
  error : Option String
  executedPrice : Option ℚ
deriving DecidableEq, Repr

/-- SQL COALESCE: the first non-null argument. -/
def coalesce {α : Type} (a b : Option α) : Option α :=
  match a with
  | some x => some x
  | none => b

/-- JavaScript `s || null` on an optional string: the empty string is falsy
and coerces to null (`extra?.txHash || null` in `emitStatus`). -/
def strOrNull (o : Option String) : Option String :=
  match o with
  | none => none
  | some s => if s = "" then none else some s

/-- JavaScript `q || null` on an optional number: zero is falsy and coerces
to null (`extra?.executedPrice || null` in `emitStatus`). -/
def ratOrNull (o : Option ℚ) : Option ℚ :=
  match o with
  | none => none
  | some q => if q = 0 then none else some q

/-- JavaScript `d || null` on an optional venue name: both venue-name strings
are truthy, so the value passes through unchanged. -/
def dexOrNull (o : Option DexName) : Option DexName := o

/-- The `UPDATE orders SET status = $2, dex = COALESCE($3, dex), ... WHERE id = $1`
query issued by `emitStatus` (source lines 148-167), as a pure transformer of
the order's ledger row. -/
def applyTransition (row : OrderRow) (status : OrderStatus) (extra : StatusExtra) : OrderRow :=
  { row with
    status := status
    dex := coalesce (dexOrNull extra.dex) row.dex
    txHash := coalesce (strOrNull extra.txHash) row.txHash
    error := coalesce (strOrNull extra.error) row.error
    executedPrice := coalesce (ratOrNull extra.executedPrice) row.executedPrice }

/-- Fold a list of emitted transitions over a ledger row. -/
def applyTrace (row : OrderRow) (tr : List (OrderStatus × StatusExtra)) : OrderRow :=
  tr.foldl (fun r p => applyTransition r p.1 p.2) row

/-- An observer WebSocket; `readyState = 1` is the OPEN state tested by
`emitStatus` before sending. -/
structure Socket where
  sid : Nat
  readyState : Nat
deriving DecidableEq, Repr

/-- Lookup of `orderSockets.get(orderId)`, the registry being modelled as an
association list from order id to the registered sockets; a missing entry
yields no sockets. -/
def regGet (reg : List (String × List Socket)) (orderId : String) : List Socket :=
  match reg.find? (fun p => p.1 == orderId) with
  | some p => p.2
  | none => []

/-- The broadcast loop of `emitStatus` (source lines 169-176): the event is
sent to every registered socket whose `readyState` is 1. The loop never
mutates `orderSockets`, so the registry is returned unchanged. -/
def publish (reg : List (String × List Socket)) (orderId : String) :
    List Socket × List (String × List Socket) :=
  ((regGet reg orderId).filter (fun s => s.readyState == 1), reg)

/-- The `socket.on("close")` handler (source lines 345-352): deletes the
socket from the set registered under `orderId` and removes the registry entry
entirely once the set becomes empty; a missing entry leaves the registry
unchanged. -/
def removeSocketOnClose (reg : List (String × List Socket)) (orderId : String)
    (sock : Socket) : List (String × List Socket) :=
  reg.filterMap (fun p =>
    if p.1 == orderId then
      if (p.2.filter (fun s => s != sock)).isEmpty then none
      else some (p.1, p.2.filter (fun s => s != sock))
    else some p)

/-- Observable effects performed by one call of `emitStatus`, in order. -/
inductive EmitEffect
  | persistRow (orderId : String) (status : OrderStatus) (extra : StatusExtra)
  | send (sock : Socket) (orderId : String) (status : OrderStatus) (extra : StatusExtra)
  | sremActive (orderId : String)
deriving DecidableEq, Repr

/-- Whether an effect is a send to an observer channel. -/
def EmitEffect.isSend : EmitEffect → Bool
  | EmitEffect.send _ _ _ _ => true
  | _ => false

/-- The effect sequence of one `emitStatus` call (source lines 128-181): the
awaited ledger UPDATE, then one send per currently-open registered socket,
then removal from the Redis `active_orders` set when the status is terminal. -/
def emitStatusEffects (reg : List (String × List Socket)) (orderId : String)
    (status : OrderStatus) (extra : StatusExtra) : List EmitEffect :=
  EmitEffect.persistRow orderId status extra ::
    ((regGet reg orderId).filter (fun s => s.readyState == 1)).map
        (fun s => EmitEffect.send s orderId status extra) ++
      (if status = OrderStatus.confirmed ∨ status = OrderStatus.failed then
        [EmitEffect.sremActive orderId]
      else [])

/-- Hash loop of `MockDexRouter.basePrice` (source lines 71-78):
`hash = (hash * 31 + charCode) >>> 0` over the characters of the key. -/
def strHash (key : List Char) : Nat :=
  key.foldl (fun h c => (h * 31 + c.toNat) % 2 ^ 32) 0

/-- `MockDexRouter.basePrice`: `1 + (hash(tokenIn + "-" + tokenOut) % 500) / 100`. -/
def basePrice (tIn tOut : String) : ℚ :=
  1 + ((strHash (tIn.data ++ [ '-' ] ++ tOut.data) % 500 : ℕ) : ℚ) / 100

/-- ASCII uppercase of one character (JavaScript `toUpperCase` restricted to
the ASCII letters that token symbols consist of). -/
def upperChar (c : Char) : Char :=
  if 'a' ≤ c ∧ c ≤ 'z' then Char.ofNat (c.toNat - 32) else c

/-- Uppercase every character of a string. -/
def toUpper (s : String) : String :=
  String.mk (s.data.map upperChar)

/-- `MockDexRouter.normalizeToken` (source lines 80-83): uppercase the symbol
and canonicalize the native alias SOL to its wrapped form WSOL. -/
def normalizeToken (symbol : String) : String :=
  if toUpper symbol = "SOL" then "WSOL" else toUpper symbol

/-- Base price after token normalization, as computed at the start of both
venue quote methods (source lines 90-92 and 101-103). -/
def quoteBase (tokenIn tokenOut : String) : ℚ :=
  basePrice (normalizeToken tokenIn) (normalizeToken tokenOut)

/-- `MockDexRouter.getRaydiumQuote` (source lines 89-98) with the call's
random draw `noise` (the value of `Math.random()`) made explicit:
price `base * (0.98 + noise * 0.04)`, fee `0.003`. The `amount` argument is
accepted and unused, as in the source. -/
def getRaydiumQuote (tokenIn tokenOut : String) (amount : ℚ) (noise : ℚ) : DexQuote :=
  { price := quoteBase tokenIn tokenOut * (98 / 100 + noise * (4 / 100)), fee := 3 / 1000 }

/-- `MockDexRouter.getMeteorQuote` (source lines 100-109) with the call's
random draw `noise` made explicit: price `base * (0.97 + noise * 0.05)`,
fee `0.002`. -/
def getMeteorQuote (tokenIn tokenOut : String) (amount : ℚ) (noise : ℚ) : DexQuote :=
  { price := quoteBase tokenIn tokenOut * (97 / 100 + noise * (5 / 100)), fee := 2 / 1000 }

/-- Fee-adjusted effective price of a quote, `price * (1 - fee)`
(source lines 219-220). -/
def effectivePrice (q : DexQuote) : ℚ :=
  q.price * (1 - q.fee)

/-- Routing decision of the worker (source lines 219-224): meteora wins only
on a strictly greater effective price, otherwise raydium is chosen, and the
winner's quote is kept. -/
def routeBest (raydiumQuote meteoraQuote : DexQuote) : DexName × DexQuote :=
  let raydiumEffective := raydiumQuote.price * (1 - raydiumQuote.fee)
  let meteoraEffective := meteoraQuote.price * (1 - meteoraQuote.fee)
  let bestDex := if meteoraEffective > raydiumEffective then DexName.meteora else DexName.raydium
  let bestQuote := if bestDex = DexName.meteora then meteoraQuote else raydiumQuote
  (bestDex, bestQuote)

/-- Slippage tolerance `allowedSlippage = 0.01` (source line 238). -/
def allowedSlippage : ℚ := 1 / 100

/-- Relative slippage `|executedPrice - quotedPrice| / quotedPrice`
(source lines 248-249). -/
def relativeSlippage (quoted executed : ℚ) : ℚ :=
  |executed - quoted| / quoted

/-- Errors a worker attempt can throw. The source throws `Error` values; the
slippage message's embedded numbers are carried as the rational itself. -/
inductive PipelineError
  | unsupportedOrderType
  | excessiveSlippage (relDiff : ℚ)
deriving DecidableEq, Repr

/-- The message of a thrown error (`err.message`); the numeric interpolation
of the slippage message is abbreviated. -/
def errMessage : PipelineError → String
  | PipelineError.unsupportedOrderType => "Unsupported order type"
  | PipelineError.excessiveSlippage _ => "Slippage too high"

/-- Outcome of one worker attempt: the returned value or the thrown error. -/
inductive AttemptOutcome
  | ok (result : SwapResult)
  | err (e : PipelineError)
deriving DecidableEq, Repr

/-- Whether an outcome is a thrown error. -/
def AttemptOutcome.isErr : AttemptOutcome → Bool
  | AttemptOutcome.ok _ => false
  | AttemptOutcome.err _ => true

/-- Per-attempt random inputs: the two venue quotes produced for this attempt,
the generated settlement hash, and the swap's slippage factor. -/
structure AttemptEnv where
  raydiumQuote : DexQuote
  meteoraQuote : DexQuote
  txHash : String
  slippageFactor : ℚ
deriving DecidableEq, Repr

/-- One attempt's emitted status transitions (in emission order) and outcome. -/
structure AttemptResult where
  emits : List (OrderStatus × StatusExtra)
  outcome : AttemptOutcome
deriving DecidableEq, Repr

/-- One run of the worker processor body (source lines 211-268): emit
`routing`, fetch both quotes, pick the best venue, emit `building`, fail on a
non-market order type, emit `submitted`, execute the swap
(`executedPrice = quotedPrice * slippageFactor`, source lines 115-123), fail
when the relative slippage exceeds the tolerance, otherwise emit `confirmed`
with the settlement hash and executed price and return the swap result. -/
def runAttempt (order : OrderJobData) (env : AttemptEnv) : AttemptResult :=
  let best := routeBest env.raydiumQuote env.meteoraQuote
  let bestDex := best.1
  let bestQuote := best.2
  if order.otype ≠ "market" then
    { emits := [(OrderStatus.routing, {}), (OrderStatus.building, { dex := some bestDex })]
      outcome := AttemptOutcome.err PipelineError.unsupportedOrderType }
  else
    let executedPrice := bestQuote.price * env.slippageFactor
    let relativeDiff := relativeSlippage bestQuote.price executedPrice
    if relativeDiff > allowedSlippage then
      { emits := [(OrderStatus.routing, {}), (OrderStatus.building, { dex := some bestDex }),
          (OrderStatus.submitted, { dex := some bestDex })]
        outcome := AttemptOutcome.err (PipelineError.excessiveSlippage relativeDiff) }
    else
      { emits := [(OrderStatus.routing, {}), (OrderStatus.building, { dex := some bestDex }),
          (OrderStatus.submitted, { dex := some bestDex }),
          (OrderStatus.confirmed,
            { dex := some bestDex, txHash := some env.txHash,
              executedPrice := some executedPrice })]
        outcome := AttemptOutcome.ok { txHash := env.txHash, executedPrice := executedPrice } }

/-- Status sequence emitted by one attempt. -/
def attemptStatuses (order : OrderJobData) (env : AttemptEnv) : List OrderStatus :=
  (runAttempt order env).emits.map Prod.fst

/-- Maximum attempt count configured on the queue (`attempts: 3`, source
line 54). -/
def queueAttempts : Nat := 3

/-- Base backoff delay in milliseconds (`backoff: { type: "exponential",
delay: 500 }`, source lines 55-58). -/
def backoffBaseDelay : Nat := 500

/-- Modelled from the spec: the exponential backoff delays the task-delivery
layer (BullMQ, out of scope per the spec's task delivery boundary) waits
between consecutive attempts — starting at the configured base delay and
doubling, one delay between each pair of consecutive attempts. -/
def backoffDelays (attempts : Nat) : List Nat :=
  (List.range (attempts - 1)).map (fun k => backoffBaseDelay * 2 ^ k)

/-- Modelled from the spec: the task-delivery layer (BullMQ, out of scope per
the spec's task delivery boundary) re-runs a failing job with a fresh attempt
until the job succeeds or the attempt budget is exhausted. The result is the
list of attempts actually executed, each with its own random inputs. -/
def usedAttempts (order : OrderJobData) : Nat → List AttemptEnv → List AttemptResult
  | 0, _ => []
  | _ + 1, [] => []
  | budget + 1, env :: rest =>
    let att := runAttempt order env
    match att.outcome with
    | AttemptOutcome.ok _ => [att]
    | AttemptOutcome.err _ => att :: usedAttempts order budget rest

/-- The attempts executed for one job under the configured attempt budget. -/
def jobAttempts (order : OrderJobData) (envs : List AttemptEnv) : List AttemptResult :=
  usedAttempts order queueAttempts envs

/-- The error of an optional final attempt, when that attempt threw. -/
def finalErrOf : Option AttemptResult → Option PipelineError
  | some att =>
    match att.outcome with
    | AttemptOutcome.err e => some e
    | AttemptOutcome.ok _ => none
  | none => none

/-- Modelled from the spec: the final failure the task-delivery layer reports
to the `worker.on("failed")` handler — present exactly when the whole attempt
budget was used and the last attempt still threw. -/
def jobFailedError (order : OrderJobData) (envs : List AttemptEnv) : Option PipelineError :=
  if (jobAttempts order envs).length = queueAttempts then
    finalErrOf (jobAttempts order envs).getLast?
  else none

/-- The trailing `failed` transition of a lifecycle, emitted by the
`worker.on("failed")` handler when the attempt budget is exhausted. -/
def failSuffix (order : OrderJobData) (envs : List AttemptEnv) :
    List (OrderStatus × StatusExtra) :=
  match jobFailedError order envs with
  | some e => [(OrderStatus.failed, { error := some (errMessage e) })]
  | none => []

/-- The full sequence of `emitStatus` transitions over one order's lifetime:
the initial `pending` emitted by the POST handler (source line 322), the
transitions of every executed attempt, and — when the attempt budget is
exhausted — the final `failed` emitted by the `worker.on("failed")` handler
with the last error's message (source lines 278-285). -/
def lifecycleTrace (order : OrderJobData) (envs : List AttemptEnv) :
    List (OrderStatus × StatusExtra) :=
  ((OrderStatus.pending, {}) ::
    (jobAttempts order envs).flatMap AttemptResult.emits) ++ failSuffix order envs

/-- Status component of the lifecycle trace. -/
def lifecycleStatuses (order : OrderJobData) (envs : List AttemptEnv) : List OrderStatus :=
  (lifecycleTrace order envs).map Prod.fst

/-- Order payload constructed by the POST handler (interface `OrderPayload`). -/
structure OrderPayload where
  tokenIn : String
  tokenOut : String
  amount : ℚ
  otype : String
deriving DecidableEq, Repr

/-- Request body of `POST /api/orders/execute`; absent fields are `none`.
A missing or non-numeric `amount` is modelled as `none` (its `Number(...)`
coercion is NaN, which fails the `Number.isFinite` check). The `kind` field
carries whatever order kind the caller supplied. -/
structure RequestBody where
  tokenIn : Option String
  tokenOut : Option String
  amount : Option ℚ
  kind : Option String
deriving DecidableEq, Repr

/-- The POST handler's validation and order construction (source lines
293-308): empty token symbols or a non-finite or non-positive amount are
rejected; otherwise the stored and enqueued payload has the constant order
type "market", ignoring any kind supplied by the caller. -/
def createOrder (body : RequestBody) : Option OrderPayload :=
  match body.amount with
  | none => none
  | some amount =>
    if body.tokenIn.getD "" = "" ∨ body.tokenOut.getD "" = "" ∨ amount ≤ 0 then none
    else some { tokenIn := body.tokenIn.getD "", tokenOut := body.tokenOut.getD "",
                amount := amount, otype := "market" }

/-- Job data enqueued for a created order (`{ orderId, ...order }`, source
line 320). -/
def toJobData (orderId : String) (p : OrderPayload) : OrderJobData :=
  { orderId := orderId, tokenIn := p.tokenIn, tokenOut := p.tokenOut,
    amount := p.amount, otype := p.otype }

/-! Concrete fixtures shared by witnesses and counterexamples. -/

/-- A market order used as a concrete fixture. -/
def exOrder : OrderJobData :=
  { orderId := "o1", tokenIn := "SOL", tokenOut := "USDC", amount := 3 / 2, otype := "market" }

/-- The ledger row of `exOrder` right after the handler's INSERT. -/
def exRow : OrderRow :=
  { id := "o1", otype := "market", tokenIn := "SOL", tokenOut := "USDC", amount := 3 / 2,
    status := OrderStatus.pending, dex := none, txHash := none, error := none,
    executedPrice := none }

/-- Attempt inputs on which raydium wins the route and the swap's slippage is
far beyond tolerance, so the attempt throws. -/
def envFail : AttemptEnv :=
  { raydiumQuote := { price := 1, fee := 0 }, meteoraQuote := { price := 1 / 2, fee := 0 },
    txHash := "0xaaa", slippageFactor := 2 }

/-- Attempt inputs on which meteora wins the route and the swap realizes the
quoted price exactly, so the attempt confirms. -/
def envOkMeteora : AttemptEnv :=
  { raydiumQuote := { price := 1 / 2, fee := 0 }, meteoraQuote := { price := 1, fee := 0 },
    txHash := "0xbbb", slippageFactor := 1 }

/-- Attempt-input list: the first attempt fails, the second succeeds. -/
def exEnvs : List AttemptEnv := [envFail, envOkMeteora, envFail]

/-! Claim C2: routing decision. -/

/-- Claim C2: for every pair of venue quotes the worker computes each venue's
effective price as `price * (1 - fee)` and picks the venue whose effective
price is strictly greatest; an exact tie always goes to raydium, so the
routing decision is a deterministic function (`routeBest`) of the two
quotes. -/
theorem routeBest_picks_strictly_best (rq mq : DexQuote) :
    (effectivePrice rq > effectivePrice mq → routeBest rq mq = (DexName.raydium, rq)) ∧
    (effectivePrice mq > effectivePrice rq → routeBest rq mq = (DexName.meteora, mq)) ∧
    (effectivePrice rq = effectivePrice mq → routeBest rq mq = (DexName.raydium, rq)) := by
  simp only [routeBest, effectivePrice]
  refine ⟨fun h => ?_, fun h => ?_, fun h => ?_⟩
  · rw [if_neg (lt_asymm h)]
    simp
  · rw [if_pos h]
    simp
  · rw [if_neg (by rw [h]; exact lt_irrefl _)]
    simp

/-- Concrete instantiation of `routeBest_picks_strictly_best`: a strict win
for each venue and an exact tie, with every hypothesis checked by
evaluation. -/
theorem routeBest_picks_strictly_best_witness :
    routeBest { price := 2, fee := 0 } { price := 1, fee := 0 } =
      (DexName.raydium, { price := 2, fee := 0 }) ∧
    routeBest { price := 1, fee := 0 } { price := 3, fee := 0 } =
      (DexName.meteora, { price := 3, fee := 0 }) ∧
    routeBest { price := 1, fee := 0 } { price := 1, fee := 0 } =
      (DexName.raydium, { price := 1, fee := 0 }) :=
  ⟨(routeBest_picks_strictly_best { price := 2, fee := 0 } { price := 1, fee := 0 }).1
      (by decide),
   (routeBest_picks_strictly_best { price := 1, fee := 0 } { price := 3, fee := 0 }).2.1
      (by decide),
   (routeBest_picks_strictly_best { price := 1, fee := 0 } { price := 1, fee := 0 }).2.2
      (by decide)⟩

/-! Claim C7: frame condition of the ledger update. -/

/-- Claim C7: a call of `emitStatus` whose optional fields are absent leaves
the previously persisted value of each of those columns unchanged (the
COALESCE keeps the old value), and the row's identity and immutable order
fields are never changed by the update. -/
theorem applyTransition_frame (row : OrderRow) (status : OrderStatus) (extra : StatusExtra) :
    (extra.dex = none → (applyTransition row status extra).dex = row.dex) ∧
    (extra.txHash = none → (applyTransition row status extra).txHash = row.txHash) ∧
    (extra.error = none → (applyTransition row status extra).error = row.error) ∧
    (extra.executedPrice = none →
      (applyTransition row status extra).executedPrice = row.executedPrice) ∧
    (applyTransition row status extra).id = row.id ∧
    (applyTransition row status extra).otype = row.otype ∧
    (applyTransition row status extra).tokenIn = row.tokenIn ∧
    (applyTransition row status extra).tokenOut = row.tokenOut ∧
    (applyTransition row status extra).amount = row.amount := by
  refine ⟨fun h => ?_, fun h => ?_, fun h => ?_, fun h => ?_, rfl, rfl, rfl, rfl, rfl⟩ <;>
    simp [applyTransition, coalesce, dexOrNull, strOrNull, ratOrNull, h]

/-- Concrete instantiation of `applyTransition_frame`: an update with no
optional fields leaves all four optional columns and the id unchanged. -/
theorem applyTransition_frame_witness :
    (applyTransition exRow OrderStatus.routing {}).dex = exRow.dex ∧
    (applyTransition exRow OrderStatus.routing {}).txHash = exRow.txHash ∧
    (applyTransition exRow OrderStatus.routing {}).error = exRow.error ∧
    (applyTransition exRow OrderStatus.routing {}).executedPrice = exRow.executedPrice ∧
    (applyTransition exRow OrderStatus.routing {}).id = exRow.id :=
  ⟨(applyTransition_frame exRow OrderStatus.routing {}).1 rfl,
   (applyTransition_frame exRow OrderStatus.routing {}).2.1 rfl,
   (applyTransition_frame exRow OrderStatus.routing {}).2.2.1 rfl,
   (applyTransition_frame exRow OrderStatus.routing {}).2.2.2.1 rfl,
   (applyTransition_frame exRow OrderStatus.routing {}).2.2.2.2.1⟩

/-! Claim C5: persistence precedes notification. -/

/-- Claim C5: in every `emitStatus` call the durable ledger write of the new
status and fields is the first effect, and every send to a subscriber channel
occurs strictly after it, so no subscriber observes a status event whose
contents are not yet persisted. -/
theorem emitStatus_persists_before_send (reg : List (String × List Socket))
    (orderId : String) (status : OrderStatus) (extra : StatusExtra) :
    (emitStatusEffects reg orderId status extra).head? =
      some (EmitEffect.persistRow orderId status extra) ∧
    ∀ j e, (emitStatusEffects reg orderId status extra).get? j = some e →
      e.isSend = true →
      0 < j ∧ (emitStatusEffects reg orderId status extra).get? 0 =
        some (EmitEffect.persistRow orderId status extra) := by
  refine ⟨rfl, fun j e hj hsend => ?_⟩
  refine ⟨?_, rfl⟩
  cases j with
  | zero =>
    simp only [emitStatusEffects, List.get?] at hj
    cases hj
    simp [EmitEffect.isSend] at hsend
  | succ n => exact Nat.succ_pos n

/-- Concrete instantiation of `emitStatus_persists_before_send`: with one open
subscriber the send sits at index 1, strictly after the persist at index 0. -/
theorem emitStatus_persists_before_send_witness :
    0 < 1 ∧ (emitStatusEffects [("o1", [{ sid := 0, readyState := 1 }])] "o1"
        OrderStatus.confirmed {}).get? 0 =
      some (EmitEffect.persistRow "o1" OrderStatus.confirmed {}) :=
  (emitStatus_persists_before_send [("o1", [{ sid := 0, readyState := 1 }])] "o1"
      OrderStatus.confirmed {}).2 1
    (EmitEffect.send { sid := 0, readyState := 1 } "o1" OrderStatus.confirmed {})
    (by decide) (by decide)

/-! Claim C8: publish delivery and pruning. -/

/-- Counterexample to claim C8: a closed channel (readyState 3) registered
under an order id is encountered during a publish, is not sent the event, yet
is still present in the registry afterwards — publish does not prune it. -/
theorem publish_does_not_prune_counterexample :
    (Socket.mk 0 3).readyState ≠ 1 ∧
    Socket.mk 0 3 ∈ regGet [("o1", [Socket.mk 0 3])] "o1" ∧
    (publish [("o1", [Socket.mk 0 3])] "o1").1 = [] ∧
    Socket.mk 0 3 ∈ regGet (publish [("o1", [Socket.mk 0 3])] "o1").2 "o1" := by
  decide

/-- Helper: after the close handler runs, no entry of the registry that is
keyed by the order id still contains the closed socket. -/
theorem removeSocketOnClose_not_mem (reg : List (String × List Socket)) (orderId : String)
    (sock : Socket) :
    sock ∉ regGet (removeSocketOnClose reg orderId sock) orderId := by
  intro hmem
  unfold regGet at hmem
  cases hfind : (removeSocketOnClose reg orderId sock).find? (fun p => p.1 == orderId) with
  | none => rw [hfind] at hmem; simp at hmem
  | some q =>
    rw [hfind] at hmem
    have hq : q ∈ removeSocketOnClose reg orderId sock := List.mem_of_find?_eq_some hfind
    have hkey := List.find?_some hfind
    simp only [beq_iff_eq] at hkey
    unfold removeSocketOnClose at hq
    rw [List.mem_filterMap] at hq
    obtain ⟨p, hp, hf⟩ := hq
    by_cases hpk : (p.1 == orderId) = true
    · rw [if_pos hpk] at hf
      by_cases hrem : ((p.2.filter (fun s => s != sock)).isEmpty : Prop)
      · rw [if_pos hrem] at hf
        exact Option.noConfusion hf
      · rw [if_neg hrem] at hf
        cases hf
        have := List.of_mem_filter hmem
        simp at this
    · rw [if_neg hpk] at hf
      cases hf
      simp [hkey] at hpk

/-- Claim C8, amended: a publish sends the event to exactly those observer
channels registered under the order identifier that are currently open, and
skips every closed channel without error and without queuing; the publish
loop itself leaves the registry unchanged — a closed channel is removed from
the registry by the socket close handler instead. -/
theorem publish_delivery_amended (reg : List (String × List Socket)) (orderId : String)
    (sock : Socket) :
    (publish reg orderId).1 = (regGet reg orderId).filter (fun s => s.readyState == 1) ∧
    (∀ s ∈ (publish reg orderId).1, s.readyState = 1 ∧ s ∈ regGet reg orderId) ∧
    (publish reg orderId).2 = reg ∧
    sock ∉ regGet (removeSocketOnClose reg orderId sock) orderId := by
  refine ⟨rfl, fun s hs => ?_, rfl, removeSocketOnClose_not_mem reg orderId sock⟩
  unfold publish at hs
  constructor
  · have := List.of_mem_filter hs
    simpa using this
  · exact List.mem_of_mem_filter hs

/-- Concrete instantiation of `publish_delivery_amended`: one open and one
closed socket registered under the id; the open one is delivered to and the
close handler removes a socket from the registry. -/
theorem publish_delivery_amended_witness :
    (publish [("o1", [Socket.mk 0 1, Socket.mk 1 3])] "o1").1 =
      (regGet [("o1", [Socket.mk 0 1, Socket.mk 1 3])] "o1").filter
        (fun s => s.readyState == 1) ∧
    (Socket.mk 0 1).readyState = 1 ∧
    Socket.mk 1 3 ∉
      regGet (removeSocketOnClose [("o1", [Socket.mk 0 1, Socket.mk 1 3])] "o1"
        (Socket.mk 1 3)) "o1" :=
  ⟨(publish_delivery_amended [("o1", [Socket.mk 0 1, Socket.mk 1 3])] "o1"
      (Socket.mk 1 3)).1,
   ((publish_delivery_amended [("o1", [Socket.mk 0 1, Socket.mk 1 3])] "o1"
      (Socket.mk 1 3)).2.1 (Socket.mk 0 1) (by decide)).1,
   (publish_delivery_amended [("o1", [Socket.mk 0 1, Socket.mk 1 3])] "o1"
      (Socket.mk 1 3)).2.2.2⟩

/-! Claim C9: base price normalization. -/

/-- Claim C9: the base price used by both venue quote operations is invariant
under letter case of the token symbols, and SOL in any case yields the same
base price as WSOL, because both quote operations derive their price from the
pair-hash of the normalized (uppercased, SOL-to-WSOL canonicalized) symbols;
being a pure function of the pair, the base price is identical across calls
for the same pair. -/
theorem quoteBase_normalization :
    (∀ s t : String, toUpper s = toUpper t → normalizeToken s = normalizeToken t) ∧
    (∀ tIn tOut tIn2 tOut2 : String, toUpper tIn = toUpper tIn2 → toUpper tOut = toUpper tOut2 →
      quoteBase tIn tOut = quoteBase tIn2 tOut2) ∧
    (∀ s : String, toUpper s = "SOL" → normalizeToken s = normalizeToken "WSOL") ∧
    (∀ s : String, toUpper s = "SOL" → ∀ tOut : String,
      quoteBase s tOut = quoteBase "WSOL" tOut) ∧
    (∀ tokenIn tokenOut amount noise,
      (getRaydiumQuote tokenIn tokenOut amount noise).price =
        quoteBase tokenIn tokenOut * (98 / 100 + noise * (4 / 100))) ∧
    (∀ tokenIn tokenOut amount noise,
      (getMeteorQuote tokenIn tokenOut amount noise).price =
        quoteBase tokenIn tokenOut * (97 / 100 + noise * (5 / 100))) := by
  have hnorm : ∀ s t : String, toUpper s = toUpper t → normalizeToken s = normalizeToken t := by
    intro s t h
    unfold normalizeToken
    rw [h]
  have hsol : ∀ s : String, toUpper s = "SOL" → normalizeToken s = normalizeToken "WSOL" := by
    intro s h
    unfold normalizeToken
    rw [h]
    decide
  refine ⟨hnorm, fun tIn tOut tIn2 tOut2 h1 h2 => ?_, hsol, fun s h tOut => ?_,
    fun _ _ _ _ => rfl, fun _ _ _ _ => rfl⟩
  · unfold quoteBase
    rw [hnorm tIn tIn2 h1, hnorm tOut tOut2 h2]
  · unfold quoteBase
    rw [hsol s h]

/-- Concrete instantiation of `quoteBase_normalization`: mixed-case symbols
and the SOL alias, with all hypotheses checked by evaluation. -/
theorem quoteBase_normalization_witness :
    normalizeToken "sol" = normalizeToken "SOL" ∧
    quoteBase "Sol" "usdc" = quoteBase "sOL" "USDC" ∧
    normalizeToken "soL" = normalizeToken "WSOL" ∧
    quoteBase "sol" "USDC" = quoteBase "WSOL" "USDC" :=
  ⟨quoteBase_normalization.1 "sol" "SOL" (by decide),
   quoteBase_normalization.2.1 "Sol" "usdc" "sOL" "USDC" (by decide) (by decide),
   quoteBase_normalization.2.2.1 "soL" (by decide),
   quoteBase_normalization.2.2.2.1 "sol" (by decide) "USDC"⟩

/-! Claim C3: slippage validation. -/

/-- Attempt inputs realizing quoted price 1.000 and executed price 1.012. -/
def envSlipHigh : AttemptEnv :=
  { raydiumQuote := { price := 1, fee := 0 }, meteoraQuote := { price := 1 / 2, fee := 0 },
    txHash := "0xcc", slippageFactor := 253 / 250 }

/-- Attempt inputs realizing quoted price 1.000 and executed price 1.008. -/
def envSlipOk : AttemptEnv :=
  { raydiumQuote := { price := 1, fee := 0 }, meteoraQuote := { price := 1 / 2, fee := 0 },
    txHash := "0xcc", slippageFactor := 126 / 125 }

/-- Claim C3: for a market order with positive quoted price the attempt
throws an excessive-slippage error exactly when the relative slippage
`|realized - quoted| / quoted` exceeds the 0.01 tolerance, and otherwise
returns the swap result and ends by emitting `confirmed` carrying the
realized price and the settlement id. -/
theorem slippage_gate (order : OrderJobData) (env : AttemptEnv)
    (hmarket : order.otype = "market")
    (hq : 0 < (routeBest env.raydiumQuote env.meteoraQuote).2.price) :
    (relativeSlippage (routeBest env.raydiumQuote env.meteoraQuote).2.price
        ((routeBest env.raydiumQuote env.meteoraQuote).2.price * env.slippageFactor) >
        allowedSlippage →
      (runAttempt order env).outcome = AttemptOutcome.err (PipelineError.excessiveSlippage
        (relativeSlippage (routeBest env.raydiumQuote env.meteoraQuote).2.price
          ((routeBest env.raydiumQuote env.meteoraQuote).2.price * env.slippageFactor))) ∧
      OrderStatus.confirmed ∉ attemptStatuses order env) ∧
    (¬ (relativeSlippage (routeBest env.raydiumQuote env.meteoraQuote).2.price
        ((routeBest env.raydiumQuote env.meteoraQuote).2.price * env.slippageFactor) >
        allowedSlippage) →
      (runAttempt order env).outcome = AttemptOutcome.ok
        { txHash := env.txHash,
          executedPrice :=
            (routeBest env.raydiumQuote env.meteoraQuote).2.price * env.slippageFactor } ∧
      (runAttempt order env).emits.getLast? = some (OrderStatus.confirmed,
        { dex := some (routeBest env.raydiumQuote env.meteoraQuote).1,
          txHash := some env.txHash,
          executedPrice :=
            some ((routeBest env.raydiumQuote env.meteoraQuote).2.price *
              env.slippageFactor) })) := by
  simp only [runAttempt, attemptStatuses]
  rw [if_neg (by simp [hmarket])]
  refine ⟨fun h => ?_, fun h => ?_⟩
  · rw [if_pos h]
    refine ⟨rfl, ?_⟩
    simp
  · rw [if_neg h]
    exact ⟨rfl, rfl⟩

/-- Concrete instantiation of `slippage_gate`: quoted price 1.000 with
realized price 1.012 throws, and with realized price 1.008 confirms. -/
theorem slippage_gate_witness :
    (runAttempt exOrder envSlipHigh).outcome = AttemptOutcome.err (PipelineError.excessiveSlippage
      (relativeSlippage (routeBest envSlipHigh.raydiumQuote envSlipHigh.meteoraQuote).2.price
        ((routeBest envSlipHigh.raydiumQuote envSlipHigh.meteoraQuote).2.price *
          envSlipHigh.slippageFactor))) ∧
    (runAttempt exOrder envSlipOk).outcome = AttemptOutcome.ok
      { txHash := envSlipOk.txHash,
        executedPrice := (routeBest envSlipOk.raydiumQuote envSlipOk.meteoraQuote).2.price *
          envSlipOk.slippageFactor } :=
  ⟨((slippage_gate exOrder envSlipHigh rfl (by decide)).1 (by decide)).1,
   ((slippage_gate exOrder envSlipOk rfl (by decide)).2 (by decide)).1⟩

/-! Claim C10: the public API only creates market orders. -/

/-- A request body that asks for a non-market kind. -/
def exBody : RequestBody :=
  { tokenIn := some "SOL", tokenOut := some "USDC", amount := some (3 / 2),
    kind := some "limit" }

/-- The payload the handler builds for `exBody`. -/
def exPayload : OrderPayload :=
  { tokenIn := "SOL", tokenOut := "USDC", amount := 3 / 2, otype := "market" }

/-- Claim C10: every order created through `POST /api/orders/execute` is
stored and enqueued with the constant order kind "market" — whatever kind the
request body carried — so the worker's unsupported-order-kind branch can
never throw for an order created via the public API. -/
theorem createOrder_forces_market (body : RequestBody) (p : OrderPayload)
    (h : createOrder body = some p) :
    p.otype = "market" ∧
    ∀ (orderId : String) (env : AttemptEnv),
      (runAttempt (toJobData orderId p) env).outcome ≠
        AttemptOutcome.err PipelineError.unsupportedOrderType := by
  have hm : p.otype = "market" := by
    cases hb : body.amount with
    | none => simp [createOrder, hb] at h
    | some amount =>
      simp only [createOrder, hb] at h
      by_cases hc : body.tokenIn.getD "" = "" ∨ body.tokenOut.getD "" = "" ∨ amount ≤ 0
      · rw [if_pos hc] at h
        exact absurd h (by simp)
      · rw [if_neg hc] at h
        injection h with h2
        rw [← h2]
  refine ⟨hm, fun orderId env => ?_⟩
  simp only [runAttempt]
  have hjob : (toJobData orderId p).otype = "market" := hm
  rw [if_neg (by simp [hjob])]
  split_ifs <;> simp

/-- Concrete instantiation of `createOrder_forces_market`: a request asking
for kind "limit" still yields a market order, and the worker's
unsupported-kind branch does not throw on it. -/
theorem createOrder_forces_market_witness :
    exPayload.otype = "market" ∧
    (runAttempt (toJobData "o1" exPayload) envOkMeteora).outcome ≠
      AttemptOutcome.err PipelineError.unsupportedOrderType :=
  ⟨(createOrder_forces_market exBody exPayload (by decide)).1,
   (createOrder_forces_market exBody exPayload (by decide)).2 "o1" envOkMeteora⟩

/-! Helper lemmas about worker attempts and the retry loop. -/

/-- Helper: unfolding of the retry loop when the first attempt succeeds. -/
lemma usedAttempts_cons_ok (order : OrderJobData) (env : AttemptEnv) (rest : List AttemptEnv)
    (n : Nat) (r : SwapResult) (h : (runAttempt order env).outcome = AttemptOutcome.ok r) :
    usedAttempts order (n + 1) (env :: rest) = [runAttempt order env] := by
  simp only [usedAttempts]
  rw [h]

/-- Helper: unfolding of the retry loop when the first attempt throws. -/
lemma usedAttempts_cons_err (order : OrderJobData) (env : AttemptEnv) (rest : List AttemptEnv)
    (n : Nat) (pe : PipelineError) (h : (runAttempt order env).outcome = AttemptOutcome.err pe) :
    usedAttempts order (n + 1) (env :: rest) =
      runAttempt order env :: usedAttempts order n rest := by
  simp only [usedAttempts]
  rw [h]

/-- Helper: the statuses one attempt emits form one of three explicit
sequences. -/
lemma attemptStatuses_cases (order : OrderJobData) (env : AttemptEnv) :
    attemptStatuses order env = [OrderStatus.routing, OrderStatus.building] ∨
    attemptStatuses order env =
      [OrderStatus.routing, OrderStatus.building, OrderStatus.submitted] ∨
    attemptStatuses order env =
      [OrderStatus.routing, OrderStatus.building, OrderStatus.submitted,
        OrderStatus.confirmed] := by
  simp only [attemptStatuses, runAttempt]
  split_ifs <;> simp

/-- Helper: every attempt emits at least one transition. -/
lemma runAttempt_emits_ne_nil (order : OrderJobData) (env : AttemptEnv) :
    (runAttempt order env).emits ≠ [] := by
  simp only [runAttempt]
  split_ifs <;> simp

/-- Helper: the worker processor itself never emits a `failed` status. -/
lemma failed_not_mem_attemptStatuses (order : OrderJobData) (env : AttemptEnv) :
    OrderStatus.failed ∉ attemptStatuses order env := by
  rcases attemptStatuses_cases order env with h | h | h <;> rw [h] <;> decide

/-- Helper: one attempt's statuses are a prefix of the success chain. -/
lemma attemptStatuses_isPrefix (order : OrderJobData) (env : AttemptEnv) :
    (attemptStatuses order env).isPrefixOf
      [OrderStatus.routing, OrderStatus.building, OrderStatus.submitted,
        OrderStatus.confirmed] = true := by
  rcases attemptStatuses_cases order env with h | h | h <;> rw [h] <;> decide

/-- Helper: every executed attempt is the run of one of the supplied
attempt inputs. -/
lemma mem_usedAttempts (order : OrderJobData) :
    ∀ (budget : Nat) (envs : List AttemptEnv) (att : AttemptResult),
      att ∈ usedAttempts order budget envs → ∃ env ∈ envs, att = runAttempt order env := by
  intro budget
  induction budget with
  | zero => intro envs att h; simp [usedAttempts] at h
  | succ n ih =>
    intro envs att h
    cases envs with
    | nil => simp [usedAttempts] at h
    | cons e rest =>
      cases ho : (runAttempt order e).outcome with
      | ok r =>
        rw [usedAttempts_cons_ok order e rest n r ho] at h
        simp at h
        exact ⟨e, List.mem_cons_self e rest, h⟩
      | err pe =>
        rw [usedAttempts_cons_err order e rest n pe ho] at h
        rcases List.mem_cons.mp h with h1 | h1
        · exact ⟨e, List.mem_cons_self e rest, h1⟩
        · obtain ⟨env, henv, heq⟩ := ih rest att h1
          exact ⟨env, List.mem_cons_of_mem _ henv, heq⟩

/-- Helper: every executed attempt except possibly the final one threw. -/
lemma usedAttempts_dropLast_err (order : OrderJobData) :
    ∀ (budget : Nat) (envs : List AttemptEnv) (att : AttemptResult),
      att ∈ (usedAttempts order budget envs).dropLast → att.outcome.isErr = true := by
  intro budget
  induction budget with
  | zero => intro envs att h; simp [usedAttempts] at h
  | succ n ih =>
    intro envs att h
    cases envs with
    | nil => simp [usedAttempts] at h
    | cons e rest =>
      cases ho : (runAttempt order e).outcome with
      | ok r =>
        rw [usedAttempts_cons_ok order e rest n r ho] at h
        simp at h
      | err pe =>
        rw [usedAttempts_cons_err order e rest n pe ho] at h
        cases hrec : usedAttempts order n rest with
        | nil => rw [hrec] at h; simp at h
        | cons b bs =>
          rw [hrec, List.dropLast_cons₂] at h
          rcases List.mem_cons.mp h with h1 | h1
          · rw [h1, ho]; rfl
          · exact ih rest att (by rw [hrec]; exact h1)

/-- Helper: when every supplied attempt input fails, the retry loop executes
as many attempts as budget and inputs allow. -/
lemma usedAttempts_length_all_err (order : OrderJobData) :
    ∀ (budget : Nat) (envs : List AttemptEnv),
      (∀ env ∈ envs, (runAttempt order env).outcome.isErr = true) →
      (usedAttempts order budget envs).length = min budget envs.length := by
  intro budget
  induction budget with
  | zero => intro envs h; simp [usedAttempts]
  | succ n ih =>
    intro envs h
    cases envs with
    | nil => simp [usedAttempts]
    | cons e rest =>
      have he := h e (List.mem_cons_self e rest)
      cases ho : (runAttempt order e).outcome with
      | ok r => rw [ho] at he; simp [AttemptOutcome.isErr] at he
      | err pe =>
        rw [usedAttempts_cons_err order e rest n pe ho, List.length_cons,
          ih rest (fun env hm => h env (List.mem_cons_of_mem _ hm)), List.length_cons]
        omega

/-! Lemmas about the lifecycle trace. -/

/-- Helper: a reported final failure means the whole retry budget was used. -/
lemma jobFailedError_some_length (order : OrderJobData) (envs : List AttemptEnv)
    (e : PipelineError) (h : jobFailedError order envs = some e) :
    (jobAttempts order envs).length = queueAttempts := by
  by_cases hl : (jobAttempts order envs).length = queueAttempts
  · exact hl
  · unfold jobFailedError at h
    rw [if_neg hl] at h
    cases h

/-- Helper: the reported final failure is the error the last executed attempt
threw. -/
lemma jobFailedError_some_getLast (order : OrderJobData) (envs : List AttemptEnv)
    (e : PipelineError) (h : jobFailedError order envs = some e) :
    ∃ att, (jobAttempts order envs).getLast? = some att ∧
      att.outcome = AttemptOutcome.err e := by
  unfold jobFailedError at h
  by_cases hl : (jobAttempts order envs).length = queueAttempts
  · rw [if_pos hl] at h
    cases hg : (jobAttempts order envs).getLast? with
    | none => rw [hg] at h; simp [finalErrOf] at h
    | some att =>
      rw [hg] at h
      simp only [finalErrOf] at h
      cases ho : att.outcome with
      | ok r => rw [ho] at h; simp at h
      | err pe =>
        rw [ho] at h
        simp at h
        exact ⟨att, rfl, by rw [ho, h]⟩
  · rw [if_neg hl] at h
    cases h

/-- Helper: no attempt-emitted transition carries the `failed` status. -/
lemma failed_not_mem_jobAttempts_statuses (order : OrderJobData) (envs : List AttemptEnv) :
    OrderStatus.failed ∉
      ((jobAttempts order envs).flatMap AttemptResult.emits).map Prod.fst := by
  intro h
  rw [List.map_flatMap] at h
  rcases List.mem_flatMap.mp h with ⟨att, hatt, hmem⟩
  obtain ⟨env, henv, rfl⟩ := mem_usedAttempts order queueAttempts envs att hatt
  exact failed_not_mem_attemptStatuses order env hmem

/-- Helper: when a final failure is reported the lifecycle ends with exactly
one `failed` status. -/
lemma trace_final_failed (order : OrderJobData) (envs : List AttemptEnv)
    (e : PipelineError) (h : jobFailedError order envs = some e) :
    (lifecycleStatuses order envs).getLast? = some OrderStatus.failed ∧
    (lifecycleStatuses order envs).count OrderStatus.failed = 1 := by
  have hsuffix : failSuffix order envs =
      [(OrderStatus.failed, { error := some (errMessage e) })] := by
    unfold failSuffix
    rw [h]
  constructor
  · unfold lifecycleStatuses lifecycleTrace
    rw [hsuffix]
    simp only [List.map_append, List.map_cons, List.map_nil]
    exact List.getLast?_concat _
  · unfold lifecycleStatuses lifecycleTrace
    rw [hsuffix]
    simp only [List.map_append, List.map_cons, List.map_nil]
    rw [List.count_append, List.count_cons,
      List.count_eq_zero.mpr (failed_not_mem_jobAttempts_statuses order envs)]
    simp

/-! Claim C1: lifecycle status sequences. -/

/-- Counterexample to claim C1: with a first attempt that fails on slippage
and a second that confirms, the order's whole lifetime emits `routing`,
`building` and `submitted` twice — statuses repeat across retried attempts
and the full sequence is not a prefix of the success chain. -/
theorem statuses_repeat_counterexample :
    lifecycleStatuses exOrder exEnvs =
      [OrderStatus.pending, OrderStatus.routing, OrderStatus.building, OrderStatus.submitted,
        OrderStatus.routing, OrderStatus.building, OrderStatus.submitted,
        OrderStatus.confirmed] ∧
    ¬ (lifecycleStatuses exOrder exEnvs).Nodup := by
  decide

/-- Claim C1, amended: within each single attempt the statuses emitted are a
nonempty prefix of `routing, building, submitted, confirmed` (no repeat, no
skip); the lifecycle starts with `pending`, and `failed` appears only when
the whole retry budget was exhausted, in which case it is the final status
and appears exactly once. Across retried attempts the in-progress statuses
repeat, as the counterexample forces. -/
theorem lifecycle_statuses_amended (order : OrderJobData) (envs : List AttemptEnv) :
    (∀ att ∈ jobAttempts order envs,
      att.emits.map Prod.fst ≠ [] ∧
      (att.emits.map Prod.fst).isPrefixOf
        [OrderStatus.routing, OrderStatus.building, OrderStatus.submitted,
          OrderStatus.confirmed] = true) ∧
    (lifecycleStatuses order envs).head? = some OrderStatus.pending ∧
    (OrderStatus.failed ∈ lifecycleStatuses order envs →
      (jobAttempts order envs).length = queueAttempts ∧
      (lifecycleStatuses order envs).getLast? = some OrderStatus.failed ∧
      (lifecycleStatuses order envs).count OrderStatus.failed = 1) := by
  refine ⟨fun att hatt => ?_, rfl, fun hmem => ?_⟩
  · obtain ⟨env, henv, rfl⟩ := mem_usedAttempts order queueAttempts envs att hatt
    refine ⟨?_, attemptStatuses_isPrefix order env⟩
    have := runAttempt_emits_ne_nil order env
    simpa using this
  · have he : ∃ e, jobFailedError order envs = some e := by
      unfold lifecycleStatuses lifecycleTrace at hmem
      simp only [List.map_append, List.map_cons] at hmem
      rcases List.mem_append.mp hmem with h1 | h3
      · rcases List.mem_cons.mp h1 with h0 | h2
        · cases h0
        · exact absurd h2 (failed_not_mem_jobAttempts_statuses order envs)
      · cases hfe : jobFailedError order envs with
        | none =>
          rw [show failSuffix order envs = [] from by unfold failSuffix; rw [hfe]] at h3
          simp at h3
        | some e => exact ⟨e, rfl⟩
    obtain ⟨e, he⟩ := he
    exact ⟨jobFailedError_some_length order envs e he,
      (trace_final_failed order envs e he).1, (trace_final_failed order envs e he).2⟩

/-- Attempt-input list on which every attempt fails. -/
def exEnvsFail : List AttemptEnv := [envFail, envFail, envFail]

/-- Concrete instantiation of `lifecycle_statuses_amended`: one concrete
attempt's statuses are a prefix of the success chain, and on an all-failing
input list the lifecycle ends in `failed`. -/
theorem lifecycle_statuses_amended_witness :
    ((runAttempt exOrder envFail).emits.map Prod.fst).isPrefixOf
      [OrderStatus.routing, OrderStatus.building, OrderStatus.submitted,
        OrderStatus.confirmed] = true ∧
    (lifecycleStatuses exOrder exEnvsFail).getLast? = some OrderStatus.failed :=
  ⟨((lifecycle_statuses_amended exOrder exEnvsFail).1 (runAttempt exOrder envFail)
      (by decide)).2,
   ((lifecycle_statuses_amended exOrder exEnvsFail).2.2 (by decide)).2.1⟩

/-! Claim C4: retry exhaustion and backoff. -/

/-- Claim C4: when every attempt of an order fails, the order transitions to
`failed` only after exactly 3 attempts — the configured maximum — with
exponential backoff delays starting at 500 ms and strictly increasing
between attempts, and no attempt itself emits a `failed` transition. -/
theorem retry_exhaustion (order : OrderJobData) (envs : List AttemptEnv)
    (hfail : ∀ env ∈ envs, (runAttempt order env).outcome.isErr = true)
    (hlen : queueAttempts ≤ envs.length) :
    (jobAttempts order envs).length = queueAttempts ∧
    queueAttempts = 3 ∧
    (jobFailedError order envs).isSome = true ∧
    (lifecycleStatuses order envs).getLast? = some OrderStatus.failed ∧
    (lifecycleStatuses order envs).count OrderStatus.failed = 1 ∧
    (∀ att ∈ jobAttempts order envs, OrderStatus.failed ∉ att.emits.map Prod.fst) ∧
    backoffDelays queueAttempts = [backoffBaseDelay, 2 * backoffBaseDelay] ∧
    backoffBaseDelay = 500 ∧
    List.Chain' (fun a b => a < b) (backoffDelays queueAttempts) := by
  have hlen3 : (jobAttempts order envs).length = queueAttempts := by
    unfold jobAttempts
    rw [usedAttempts_length_all_err order queueAttempts envs hfail]
    omega
  have hfe : ∃ e, jobFailedError order envs = some e := by
    have hne : jobAttempts order envs ≠ [] := by
      intro hnil
      rw [hnil] at hlen3
      simp [queueAttempts] at hlen3
    obtain ⟨env, henv, hlast⟩ := mem_usedAttempts order queueAttempts envs
      ((jobAttempts order envs).getLast hne) (List.getLast_mem hne)
    have herr := hfail env henv
    cases ho : (runAttempt order env).outcome with
    | ok r => rw [ho] at herr; simp [AttemptOutcome.isErr] at herr
    | err pe =>
      refine ⟨pe, ?_⟩
      unfold jobFailedError
      rw [if_pos hlen3, List.getLast?_eq_getLast _ hne]
      simp only [finalErrOf]
      rw [hlast, ho]
  obtain ⟨e, he⟩ := hfe
  refine ⟨hlen3, rfl, by rw [he]; rfl, (trace_final_failed order envs e he).1,
    (trace_final_failed order envs e he).2, fun att hatt => ?_, by decide, rfl,
    by rw [show backoffDelays queueAttempts = [500, 1000] from by decide]
       norm_num [List.chain'_cons]⟩
  obtain ⟨env, henv, rfl⟩ := mem_usedAttempts order queueAttempts envs att hatt
  exact failed_not_mem_attemptStatuses order env

/-- Concrete instantiation of `retry_exhaustion`: three failing attempts on
concrete inputs, the lifecycle ending with `failed`. -/
theorem retry_exhaustion_witness :
    (jobAttempts exOrder exEnvsFail).length = queueAttempts ∧
    (lifecycleStatuses exOrder exEnvsFail).count OrderStatus.failed = 1 :=
  ⟨(retry_exhaustion exOrder exEnvsFail (by decide) (by decide)).1,
   (retry_exhaustion exOrder exEnvsFail (by decide) (by decide)).2.2.2.2.1⟩

/-! Claim C6: settlement fields across the lifecycle. -/

/-- Counterexample to claim C6: on the first attempt the route picks raydium
and the attempt fails on slippage; the retried attempt picks meteora and its
`building` update overwrites the persisted venue with a different value. -/
theorem venue_overwritten_counterexample :
    (applyTrace exRow ((lifecycleTrace exOrder exEnvs).take 3)).dex = some DexName.raydium ∧
    (applyTrace exRow ((lifecycleTrace exOrder exEnvs).take 6)).dex =
      some DexName.meteora := by
  decide

/-- Helper: a throwing attempt's transitions never carry a settlement id or a
realized price. -/
lemma runAttempt_err_extras (order : OrderJobData) (env : AttemptEnv) (pe : PipelineError)
    (h : (runAttempt order env).outcome = AttemptOutcome.err pe) :
    ∀ p ∈ (runAttempt order env).emits, p.2.txHash = none ∧ p.2.executedPrice = none := by
  simp only [runAttempt] at h ⊢
  split_ifs at h ⊢ <;> simp_all

/-- Helper: all but the last transition of any attempt carry no settlement id
and no realized price. -/
lemma runAttempt_dropLast_extras (order : OrderJobData) (env : AttemptEnv) :
    ∀ p ∈ (runAttempt order env).emits.dropLast,
      p.2.txHash = none ∧ p.2.executedPrice = none := by
  simp only [runAttempt]
  split_ifs <;> simp [List.dropLast]

/-- Helper: when a final failure is reported, every executed attempt threw. -/
lemma all_attempts_err_of_failed (order : OrderJobData) (envs : List AttemptEnv)
    (e : PipelineError) (hfe : jobFailedError order envs = some e) :
    ∀ att ∈ jobAttempts order envs, att.outcome.isErr = true := by
  intro att hatt
  have hne : jobAttempts order envs ≠ [] := by
    intro hnil
    rw [hnil] at hatt
    simp at hatt
  rw [← List.dropLast_append_getLast hne] at hatt
  rcases List.mem_append.mp hatt with hd | hl
  · exact usedAttempts_dropLast_err order queueAttempts envs att hd
  · have hla : att = (jobAttempts order envs).getLast hne := by simpa using hl
    obtain ⟨latt, hg, ho⟩ := jobFailedError_some_getLast order envs e hfe
    rw [List.getLast?_eq_getLast _ hne] at hg
    injection hg with hg2
    rw [hla, hg2, ho]
    rfl

/-- Helper: every transition of the lifecycle other than the final one
carries no settlement id and no realized price. -/
lemma lifecycleTrace_dropLast_extras (order : OrderJobData) (envs : List AttemptEnv) :
    ∀ p ∈ (lifecycleTrace order envs).dropLast,
      p.2.txHash = none ∧ p.2.executedPrice = none := by
  intro p hp
  cases hfe : jobFailedError order envs with
  | some e =>
    have hsuffix : failSuffix order envs =
        [(OrderStatus.failed, { error := some (errMessage e) })] := by
      unfold failSuffix
      rw [hfe]
    unfold lifecycleTrace at hp
    rw [hsuffix, List.dropLast_concat] at hp
    rcases List.mem_cons.mp hp with h0 | hB
    · rw [h0]
      exact ⟨rfl, rfl⟩
    · rcases List.mem_flatMap.mp hB with ⟨att, hatt, hpem⟩
      have herr := all_attempts_err_of_failed order envs e hfe att hatt
      obtain ⟨env, henv, rfl⟩ := mem_usedAttempts order queueAttempts envs att hatt
      cases ho : (runAttempt order env).outcome with
      | ok r => rw [ho] at herr; simp [AttemptOutcome.isErr] at herr
      | err pe => exact runAttempt_err_extras order env pe ho p hpem
  | none =>
    have hsuffix : failSuffix order envs = [] := by
      unfold failSuffix
      rw [hfe]
    unfold lifecycleTrace at hp
    rw [hsuffix, List.append_nil] at hp
    cases hatts : jobAttempts order envs with
    | nil =>
      rw [hatts] at hp
      simp at hp
    | cons a as =>
      have hne : jobAttempts order envs ≠ [] := by
        rw [hatts]
        simp
      have hdecomp : jobAttempts order envs =
          (jobAttempts order envs).dropLast ++ [(jobAttempts order envs).getLast hne] :=
        (List.dropLast_append_getLast hne).symm
      obtain ⟨envL, henvL, hlattEq⟩ := mem_usedAttempts order queueAttempts envs
        ((jobAttempts order envs).getLast hne) (List.getLast_mem hne)
      have hlne : ((jobAttempts order envs).getLast hne).emits ≠ [] := by
        rw [hlattEq]
        exact runAttempt_emits_ne_nil order envL
      rw [show (jobAttempts order envs).flatMap AttemptResult.emits =
            (jobAttempts order envs).dropLast.flatMap AttemptResult.emits ++
              ((jobAttempts order envs).getLast hne).emits from by
          conv_lhs => rw [hdecomp]
          rw [List.flatMap_append, List.flatMap_cons, List.flatMap_nil, List.append_nil]] at hp
      rw [List.dropLast_cons_of_ne_nil (by
          intro hcontra
          exact hlne (List.append_eq_nil.mp hcontra).2),
        List.dropLast_append_of_ne_nil _ hlne] at hp
      rcases List.mem_cons.mp hp with h0 | hFE
      · rw [h0]
        exact ⟨rfl, rfl⟩
      · rcases List.mem_append.mp hFE with hF | hE
        · rcases List.mem_flatMap.mp hF with ⟨att, hattd, hpem⟩
          have herr := usedAttempts_dropLast_err order queueAttempts envs att hattd
          obtain ⟨env, henv, rfl⟩ := mem_usedAttempts order queueAttempts envs att
            (List.dropLast_subset _ hattd)
          cases ho : (runAttempt order env).outcome with
          | ok r => rw [ho] at herr; simp [AttemptOutcome.isErr] at herr
          | err pe => exact runAttempt_err_extras order env pe ho p hpem
        · rw [hlattEq] at hE
          exact runAttempt_dropLast_extras order envL p hE

/-- Helper: folding transitions that carry no settlement id and no realized
price over a row with both fields unset leaves both fields unset. -/
lemma applyTrace_none_opt (tr : List (OrderStatus × StatusExtra)) :
    ∀ row : OrderRow, row.txHash = none → row.executedPrice = none →
      (∀ p ∈ tr, p.2.txHash = none ∧ p.2.executedPrice = none) →
      (applyTrace row tr).txHash = none ∧ (applyTrace row tr).executedPrice = none := by
  induction tr with
  | nil => intro row htx hep _; exact ⟨htx, hep⟩
  | cons p rest ih =>
    intro row htx hep hall
    have hp := hall p (List.mem_cons_self p rest)
    apply ih
    · simp [applyTransition, coalesce, strOrNull, hp.1, htx]
    · simp [applyTransition, coalesce, ratOrNull, hp.2, hep]
    · intro q hq
      exact hall q (List.mem_cons_of_mem _ hq)

/-- Claim C6, amended: once the settlement identifier or the realized price
has been persisted, no later transition of the order's lifecycle changes it —
both are written only by the lifecycle's final transition. The chosen venue,
however, can be overwritten with a different venue by a retried attempt, as
the counterexample forces. -/
theorem settlement_fields_monotone (order : OrderJobData) (envs : List AttemptEnv)
    (row : OrderRow) (htx : row.txHash = none) (hep : row.executedPrice = none)
    (k₁ k₂ : Nat) (hk : k₁ ≤ k₂) :
    (∀ v, (applyTrace row ((lifecycleTrace order envs).take k₁)).txHash = some v →
      (applyTrace row ((lifecycleTrace order envs).take k₂)).txHash = some v) ∧
    (∀ v, (applyTrace row ((lifecycleTrace order envs).take k₁)).executedPrice = some v →
      (applyTrace row ((lifecycleTrace order envs).take k₂)).executedPrice = some v) := by
  by_cases hlen : (lifecycleTrace order envs).length ≤ k₁
  · rw [List.take_of_length_le hlen, List.take_of_length_le (le_trans hlen hk)]
    exact ⟨fun v h => h, fun v h => h⟩
  · push_neg at hlen
    have hk1 : k₁ ≤ (lifecycleTrace order envs).length - 1 := by omega
    have hsub : ∀ p ∈ (lifecycleTrace order envs).take k₁,
        p.2.txHash = none ∧ p.2.executedPrice = none := by
      intro p hp
      apply lifecycleTrace_dropLast_extras order envs
      rw [List.dropLast_eq_take]
      have heq : List.take k₁ (List.take ((lifecycleTrace order envs).length - 1)
          (lifecycleTrace order envs)) = (lifecycleTrace order envs).take k₁ := by
        rw [List.take_take]
        congr 1
        omega
      exact List.take_subset _ _ (heq ▸ hp)
    have hres := applyTrace_none_opt _ row htx hep hsub
    constructor
    · intro v hv
      rw [hres.1] at hv
      cases hv
    · intro v hv
      rw [hres.2] at hv
      cases hv

/-- Concrete instantiation of `settlement_fields_monotone`: the settlement id
persisted by the final confirmed transition is still intact at any later
point. -/
theorem settlement_fields_monotone_witness :
    (applyTrace exRow ((lifecycleTrace exOrder exEnvs).take 9)).txHash = some "0xbbb" :=
  (settlement_fields_monotone exOrder exEnvs exRow rfl rfl 8 9 (by omega)).1 "0xbbb"
    (by decide)

end OrderExec
